import Mathlib

/-!
# HTTP-Over-Protocol: the tunnel engine of `src/proxy.cpp`

A shallow embedding of `packetTunnel` and `exchangeData`.

* Machine `int`s are embedded as `Int`.  The only arithmetic on them is
  `failures++`, `failures += 10` and `infail += k`; `whileLoop_counters_bounded`
  shows that every counter value the loop reaches lies in `0 .. 14`, so 32-bit
  arithmetic never wraps.
* `ProxySocket::read` lives in a header that is not part of `src/`; its result
  (return value, `messageFrom` written through the reference, bytes left in the
  buffer) is an input of the model, a `ReadResult`.
* Every effect on the outside world (mutex, sockets, sleeps, process exit) is
  recorded, in program order, as an `Action` of a trace; the construction of
  `outsock` (line 88) is the action `connect`.  Calls of `logger` and the
  allocation of the two buffers (lines 81-82) are not recorded.
* The reads of a session are an input: one `ReadResult` per round and socket.
  The loop is run with fuel; a session whose loop is never left has no complete
  trace (`exchangeData` gives `none` for every fuel).
* `ProxySocket::write` is taken to return; a `SIGPIPE` raised inside it ends the
  process through `pipeHandler` and is outside the model.
-/

namespace HOP

/-- The macro `SLEEPT` of `proxy.cpp`, line 7. -/
def SLEEPT : Nat := 1000

/-- Modelled from the spec: the enum `Mode` (CLIENT, SERVER), declared in a
header that is not under `src/`; section 3 of the spec calls it Role. -/
inductive Mode where
  | CLIENT
  | SERVER
  deriving DecidableEq, Repr

/-- Modelled from the spec: the camouflage mode of a `ProxySocket` (HTTP, PLAIN),
declared in `proxysocket.h`, which is not under `src/`. -/
inductive Protocol where
  | HTTP
  | PLAIN
  deriving DecidableEq, Repr

/-- The two `ProxySocket` objects of `exchangeData`: its parameter `sock`
(local-facing) and its local `outsock` (remote-facing). -/
inductive Sock where
  | sock
  | outsock
  deriving DecidableEq, Repr

/-- The two `vector<char>` objects of `exchangeData`. -/
inductive Buf where
  | inbuffer
  | outbuffer
  deriving DecidableEq, Repr

/-- The two `volatile bool` locals of `exchangeData`. -/
inductive Flag where
  | ClientToOut
  | OutToClient
  deriving DecidableEq, Repr

/-- What one call `readSocket.read(buffer, 0, messageFrom)` hands back: the
returned `int`, the value stored in `messageFrom`, and the bytes it left in
`buffer`. -/
structure ReadResult where
  messageSize : Int
  messageFrom : Int
  bytes : List Nat
  deriving DecidableEq, Repr

/-- Observable effects, in the vocabulary of the source. -/
inductive Action where
  | lock
  | unlock
  | read (readSocket : Sock) (buffer : Buf)
  | write (writeSocket : Sock) (buffer : Buf) (bytes : List Nat)
      (messageSize : Int) (messageFrom : Int)
  | usleep (us : Nat)
  | connect (s : Sock) (p : Protocol)
  | sendHelloMessage (s : Sock)
  | receiveHelloMessage (s : Sock)
  | clear (b : Buf)
  | closeSocket (s : Sock)
  | exit (code : Int)
  deriving DecidableEq, Repr

/-- The struct `tunnelContext`, lines 32-39; references become names. -/
structure tunnelContext where
  readSocket : Sock
  writeSocket : Sock
  amIRunning : Flag
  sleepOn : Flag
  type : String
  buffer : Buf
  deriving DecidableEq, Repr

/-- The function `packetTunnel`, lines 41-77: the returned `failures` and the
actions performed, the read having produced `r`. -/
def packetTunnel (context : tunnelContext) (r : ReadResult) : Int × List Action :=
  let failures : Int := 0
  let entry : List Action := [Action.lock, Action.read context.readSocket context.buffer]
  let leave : List Action := [Action.unlock, Action.usleep SLEEPT]
  if r.messageSize = 0 then
    (failures, entry ++ leave)
  else if r.messageSize = -1 then
    (failures + 1, entry ++ leave)
  else if r.messageSize = -2 then
    (failures + 10, entry ++ leave)
  else
    (failures,
      entry ++ [Action.write context.writeSocket context.buffer r.bytes
        r.messageSize r.messageFrom] ++ leave)

/-- The static `fromClientToOut` of `exchangeData`, lines 104-111. -/
def fromClientToOut (mode : Mode) : tunnelContext :=
  { readSocket := Sock.sock
    writeSocket := Sock.outsock
    amIRunning := Flag.OutToClient
    sleepOn := Flag.ClientToOut
    type := if mode = Mode.CLIENT then "PlainToHTTP" else "HTTPtoPlain"
    buffer := Buf.inbuffer }

/-- The static `fromOutToClient` of `exchangeData`, lines 113-120. -/
def fromOutToClient (mode : Mode) : tunnelContext :=
  { readSocket := Sock.outsock
    writeSocket := Sock.sock
    amIRunning := Flag.ClientToOut
    sleepOn := Flag.OutToClient
    type := if mode = Mode.CLIENT then "HTTPtoPlain" else "PlainToHTTP"
    buffer := Buf.outbuffer }

/-- The results of the reads of a session: `reads s i` is what the read of
round `i` (counted from 0) on socket `s` returns. -/
abbrev Reads := Sock → Nat → ReadResult

/-- The variables of the forwarding loop of `exchangeData`, with the number of
completed rounds and the actions performed so far. -/
structure LoopState where
  infail : Int
  outfail : Int
  round : Nat
  trace : List Action
  deriving DecidableEq, Repr

/-- The loop condition `infail < 5 && outfail < 5`, line 128. -/
def loopCond (s : LoopState) : Bool :=
  decide (s.infail < 5) && decide (s.outfail < 5)

/-- The first half of the loop body, lines 129-134. -/
def stepIn (mode : Mode) (reads : Reads) (s : LoopState) : LoopState :=
  let kt := packetTunnel (fromClientToOut mode) (reads Sock.sock s.round)
  let k := kt.1
  { s with
    infail := if k = 0 then 0 else s.infail + k
    trace := s.trace ++ kt.2 }

/-- The second half of the loop body, lines 136-141; it completes the round. -/
def stepOut (mode : Mode) (reads : Reads) (s : LoopState) : LoopState :=
  let kt := packetTunnel (fromOutToClient mode) (reads Sock.outsock s.round)
  let k := kt.1
  { s with
    outfail := if k = 0 then 0 else s.outfail + k
    round := s.round + 1
    trace := s.trace ++ kt.2 }

/-- The loop body, lines 129-141. -/
def loopBody (mode : Mode) (reads : Reads) (s : LoopState) : LoopState :=
  stepOut mode reads (stepIn mode reads s)

/-- The `while` loop of lines 128-142, run for at most `fuel` iterations. -/
def whileLoop (mode : Mode) (reads : Reads) : Nat → LoopState → LoopState
  | 0, s => s
  | fuel + 1, s =>
    if loopCond s then whileLoop mode reads fuel (loopBody mode reads s) else s

/-- The actions of `exchangeData` before the loop, lines 88-99. -/
def handshake (mode : Mode) : List Action :=
  [Action.connect Sock.outsock (if mode = Mode.CLIENT then Protocol.HTTP else Protocol.PLAIN),
   if mode = Mode.CLIENT then Action.sendHelloMessage Sock.outsock
   else Action.receiveHelloMessage Sock.sock]

/-- The loop variables at line 128, first evaluation: `infail = 0`, `outfail = 0`. -/
def loopStart (mode : Mode) : LoopState :=
  { infail := 0, outfail := 0, round := 0, trace := handshake mode }

/-- The actions of `exchangeData` after the loop, lines 144-150. -/
def teardown : List Action :=
  [Action.usleep 100000, Action.clear Buf.inbuffer, Action.clear Buf.outbuffer,
   Action.closeSocket Sock.outsock, Action.usleep 100000, Action.closeSocket Sock.sock,
   Action.exit 0]

/-- The function `exchangeData`, lines 79-151: the complete trace of the worker
when the loop is left within `fuel` iterations, `none` when it is not. -/
def exchangeData (mode : Mode) (reads : Reads) (fuel : Nat) : Option (List Action) :=
  let s := whileLoop mode reads fuel (loopStart mode)
  if loopCond s then none else some (s.trace ++ teardown)

/-! ### Vocabulary of the properties -/

/-- The two forwarding directions. -/
inductive Direction where
  | localToRemote
  | remoteToLocal
  deriving DecidableEq, Repr

/-- A read on `sock` starts a local→remote step, a read on `outsock` a
remote→local step; no other action starts a step. -/
def stepOf : Action → Option Direction
  | Action.read Sock.sock _ => some Direction.localToRemote
  | Action.read Sock.outsock _ => some Direction.remoteToLocal
  | _ => none

/-- The forwarding steps of a trace, in order. -/
def stepsOf (tr : List Action) : List Direction :=
  tr.filterMap stepOf

/-- Is the action a `write`? -/
def isWrite : Action → Bool
  | Action.write _ _ _ _ _ => true
  | _ => false

/-- Is the action a `read`? -/
def isRead : Action → Bool
  | Action.read _ _ => true
  | _ => false

/-- Is the action one of the two handshake calls? -/
def isHandshake : Action → Bool
  | Action.sendHelloMessage _ => true
  | Action.receiveHelloMessage _ => true
  | _ => false

/-- Is the action a `closeSocket`? -/
def isClose : Action → Bool
  | Action.closeSocket _ => true
  | _ => false

/-- The writes of a trace, in order. -/
def writesOf (tr : List Action) : List Action :=
  tr.filter isWrite

/-- Scans a trace with the state of the mutex (`held`): `true` when every
`write` of the trace happens while the mutex is not held. -/
def writesOutsideLock : Bool → List Action → Bool
  | _, [] => true
  | _, Action.lock :: tr => writesOutsideLock true tr
  | _, Action.unlock :: tr => writesOutsideLock false tr
  | held, Action.write _ _ _ _ _ :: tr => !held && writesOutsideLock held tr
  | held, _ :: tr => writesOutsideLock held tr

/-- Scans a trace with the state of the mutex (`held`): `true` when every
`read` and every `write` of the trace happens while the mutex is held. -/
def ioInsideLock : Bool → List Action → Bool
  | _, [] => true
  | _, Action.lock :: tr => ioInsideLock true tr
  | _, Action.unlock :: tr => ioInsideLock false tr
  | held, Action.write _ _ _ _ _ :: tr => held && ioInsideLock held tr
  | held, Action.read _ _ :: tr => held && ioInsideLock held tr
  | held, _ :: tr => ioInsideLock held tr

/-- The four legal results of a read (spec, section 4.1): a message of n > 0
bytes, a zero-length message (0), connection-closed (-1), protocol-violation (-2). -/
def legalRead (r : ReadResult) : Prop :=
  0 < r.messageSize ∨ r.messageSize = 0 ∨ r.messageSize = -1 ∨ r.messageSize = -2

/-- A read that is neither connection-closed nor protocol-violation. -/
def notFailing (r : ReadResult) : Prop :=
  r.messageSize ≠ -1 ∧ r.messageSize ≠ -2

/-- The own socket of a direction: the one its steps read from. -/
def Direction.source : Direction → Sock
  | Direction.localToRemote => Sock.sock
  | Direction.remoteToLocal => Sock.outsock

/-- The socket the other direction reads from. -/
def Direction.otherSource : Direction → Sock
  | Direction.localToRemote => Sock.outsock
  | Direction.remoteToLocal => Sock.sock

/-- The failure counter of a direction: `infail` for local→remote, `outfail`
for remote→local. -/
def LoopState.counter (s : LoopState) : Direction → Int
  | Direction.localToRemote => s.infail
  | Direction.remoteToLocal => s.outfail

/-- The other direction. -/
def Direction.other : Direction → Direction
  | Direction.localToRemote => Direction.remoteToLocal
  | Direction.remoteToLocal => Direction.localToRemote

/-- The steps of `n` complete rounds of the loop body: local→remote, then
remote→local, `n` times. -/
def roundSteps : Nat → List Direction
  | 0 => []
  | n + 1 => Direction.localToRemote :: Direction.remoteToLocal :: roundSteps n

/-- The direction whose turn it is at position `j` (counted from 0) of a strictly
alternating sequence that starts with local→remote. -/
def turn (j : Nat) : Direction :=
  if j % 2 = 0 then Direction.localToRemote else Direction.remoteToLocal

/-- Is the action one that `packetTunnel` performs: `lock`, `read`, `write`,
`unlock` or the sleep of `SLEEPT` microseconds? -/
def isStepAction : Action → Bool
  | Action.lock => true
  | Action.unlock => true
  | Action.read _ _ => true
  | Action.write _ _ _ _ _ => true
  | Action.usleep us => us == SLEEPT
  | _ => false

/-! ### Concrete read results and sessions -/

/-- A connection-closed read: `read` returned -1. -/
def closedRead : ReadResult := ⟨-1, 0, []⟩

/-- A zero-length read: `read` returned 0. -/
def emptyRead : ReadResult := ⟨0, 0, []⟩

/-- A protocol-violation read: `read` returned -2. -/
def badRead : ReadResult := ⟨-2, 0, []⟩

/-- A read of the 4-byte message "PING" with tag 7. -/
def pingRead : ReadResult := ⟨4, 7, [80, 73, 78, 71]⟩

/-- A read whose return value, -3, is none of the four legal ones. -/
def strayRead : ReadResult := ⟨-3, 7, [1, 2, 3]⟩

/-- A session whose reads on `sock` are connection-closed in round 0 and "PING"
afterwards, and whose reads on `outsock` are all zero-length. -/
def closedThenPing : Reads := fun s i =>
  match s with
  | Sock.sock => if i = 0 then closedRead else pingRead
  | Sock.outsock => emptyRead

/-- A session in which every read on `sock` is connection-closed and every read
on `outsock` is zero-length. -/
def localAlwaysClosed : Reads := fun s _ =>
  match s with
  | Sock.sock => closedRead
  | Sock.outsock => emptyRead

/-- A session whose reads on `sock` are connection-closed in every round but the
fifth (round 4 counted from 0), which is zero-length, and whose reads on `outsock`
are all the message "PING". -/
def closedWithPause : Reads := fun s i =>
  match s with
  | Sock.sock => if i = 4 then emptyRead else closedRead
  | Sock.outsock => pingRead

/-! ### The forwarding step -/

theorem packetTunnel_failures (context : tunnelContext) (r : ReadResult) :
    (packetTunnel context r).1 =
      if r.messageSize = -1 then 1 else if r.messageSize = -2 then 10 else 0 := by
  unfold packetTunnel
  split_ifs <;> simp_all

theorem packetTunnel_trace (context : tunnelContext) (r : ReadResult) :
    (packetTunnel context r).2 =
      if r.messageSize = 0 ∨ r.messageSize = -1 ∨ r.messageSize = -2 then
        [Action.lock, Action.read context.readSocket context.buffer,
         Action.unlock, Action.usleep SLEEPT]
      else
        [Action.lock, Action.read context.readSocket context.buffer,
         Action.write context.writeSocket context.buffer r.bytes r.messageSize r.messageFrom,
         Action.unlock, Action.usleep SLEEPT] := by
  unfold packetTunnel
  split_ifs <;> simp_all

theorem packetTunnel_writes (context : tunnelContext) (r : ReadResult) :
    writesOf (packetTunnel context r).2 =
      if r.messageSize = 0 ∨ r.messageSize = -1 ∨ r.messageSize = -2 then []
      else [Action.write context.writeSocket context.buffer r.bytes
              r.messageSize r.messageFrom] := by
  rw [packetTunnel_trace]
  split_ifs <;> simp [writesOf, isWrite]

theorem stepIn_infail (mode : Mode) (reads : Reads) (s : LoopState) :
    (stepIn mode reads s).infail =
      if (reads Sock.sock s.round).messageSize = -1 then s.infail + 1
      else if (reads Sock.sock s.round).messageSize = -2 then s.infail + 10
      else 0 := by
  simp only [stepIn, packetTunnel_failures]
  split_ifs <;> simp_all

theorem stepOut_outfail (mode : Mode) (reads : Reads) (s : LoopState) :
    (stepOut mode reads s).outfail =
      if (reads Sock.outsock s.round).messageSize = -1 then s.outfail + 1
      else if (reads Sock.outsock s.round).messageSize = -2 then s.outfail + 10
      else 0 := by
  simp only [stepOut, packetTunnel_failures]
  split_ifs <;> simp_all

@[simp] theorem stepIn_outfail (mode : Mode) (reads : Reads) (s : LoopState) :
    (stepIn mode reads s).outfail = s.outfail := rfl

@[simp] theorem stepIn_round (mode : Mode) (reads : Reads) (s : LoopState) :
    (stepIn mode reads s).round = s.round := rfl

@[simp] theorem stepOut_infail (mode : Mode) (reads : Reads) (s : LoopState) :
    (stepOut mode reads s).infail = s.infail := rfl

@[simp] theorem stepOut_round (mode : Mode) (reads : Reads) (s : LoopState) :
    (stepOut mode reads s).round = s.round + 1 := rfl

@[simp] theorem stepIn_trace (mode : Mode) (reads : Reads) (s : LoopState) :
    (stepIn mode reads s).trace =
      s.trace ++ (packetTunnel (fromClientToOut mode) (reads Sock.sock s.round)).2 := rfl

@[simp] theorem stepOut_trace (mode : Mode) (reads : Reads) (s : LoopState) :
    (stepOut mode reads s).trace =
      s.trace ++ (packetTunnel (fromOutToClient mode) (reads Sock.outsock s.round)).2 := rfl

/-- C1: a step whose read is one of the four legal results performs one read into
the buffer of its context and, when the result is a message of n > 0 bytes with
tag t, exactly one write, to the destination socket, of that same buffer with the
bytes the read left in it, length n and tag t; when the result is 0, -1 or -2 it
performs no write. -/
theorem packetTunnel_write_contract (context : tunnelContext) (r : ReadResult)
    (h : legalRead r) :
    (packetTunnel context r).2.filter isRead =
        [Action.read context.readSocket context.buffer] ∧
    writesOf (packetTunnel context r).2 =
      if 0 < r.messageSize then
        [Action.write context.writeSocket context.buffer r.bytes
          r.messageSize r.messageFrom]
      else [] := by
  refine ⟨?_, ?_⟩
  · rw [packetTunnel_trace]
    split_ifs <;> simp [isRead]
  · rw [packetTunnel_writes]
    unfold legalRead at h
    split_ifs <;> first | rfl | omega

theorem packetTunnel_write_contract_witness :
    legalRead ⟨4, 7, [80, 73, 78, 71]⟩ ∧
    (packetTunnel (fromClientToOut Mode.CLIENT) ⟨4, 7, [80, 73, 78, 71]⟩).2.filter isRead =
        [Action.read Sock.sock Buf.inbuffer] ∧
    writesOf (packetTunnel (fromClientToOut Mode.CLIENT) ⟨4, 7, [80, 73, 78, 71]⟩).2 =
        [Action.write Sock.outsock Buf.inbuffer [80, 73, 78, 71] 4 7] :=
  ⟨by unfold legalRead; decide,
   packetTunnel_write_contract (fromClientToOut Mode.CLIENT) ⟨4, 7, [80, 73, 78, 71]⟩
     (by unfold legalRead; decide)⟩

/-- C2: for both directions and every counter value before the step: after a
zero-length read the counter of the direction is 0, after connection-closed it is
the old value plus 1, after protocol-violation the old value plus 10; the counter
of the other direction is the same before and after the step. -/
theorem step_counter_update (mode : Mode) (reads : Reads) (s : LoopState) :
    (((reads Sock.sock s.round).messageSize = 0 → (stepIn mode reads s).infail = 0) ∧
     ((reads Sock.sock s.round).messageSize = -1 →
        (stepIn mode reads s).infail = s.infail + 1) ∧
     ((reads Sock.sock s.round).messageSize = -2 →
        (stepIn mode reads s).infail = s.infail + 10) ∧
     (stepIn mode reads s).outfail = s.outfail) ∧
    (((reads Sock.outsock s.round).messageSize = 0 → (stepOut mode reads s).outfail = 0) ∧
     ((reads Sock.outsock s.round).messageSize = -1 →
        (stepOut mode reads s).outfail = s.outfail + 1) ∧
     ((reads Sock.outsock s.round).messageSize = -2 →
        (stepOut mode reads s).outfail = s.outfail + 10) ∧
     (stepOut mode reads s).infail = s.infail) := by
  refine ⟨⟨?_, ?_, ?_, rfl⟩, ⟨?_, ?_, ?_, rfl⟩⟩ <;> intro h <;>
    simp [stepIn_infail, stepOut_outfail, h]

/-- C3, the claim fails: in the session `closedThenPing` the local→remote counter
is 1 after round 0, the read of round 1 is a message of 4 bytes, and the step of
round 1 leaves the counter at 0, not at 1. -/
theorem message_read_changes_counter :
    (whileLoop Mode.CLIENT closedThenPing 1 (loopStart Mode.CLIENT)).infail = 1 ∧
    (whileLoop Mode.CLIENT closedThenPing 1 (loopStart Mode.CLIENT)).round = 1 ∧
    0 < (closedThenPing Sock.sock 1).messageSize ∧
    (stepIn Mode.CLIENT closedThenPing
      (whileLoop Mode.CLIENT closedThenPing 1 (loopStart Mode.CLIENT))).infail = 0 ∧
    (stepIn Mode.CLIENT closedThenPing
      (whileLoop Mode.CLIENT closedThenPing 1 (loopStart Mode.CLIENT))).infail ≠
      (whileLoop Mode.CLIENT closedThenPing 1 (loopStart Mode.CLIENT)).infail := by
  decide

/-- C3, amended: a step whose read yields a message of n > 0 bytes sets the
failure counter of its direction to 0 for every value of the counter before the
step, as a zero-length read does, and leaves the counter of the other direction
as it was; the counter of the direction is unchanged exactly when it was 0. -/
theorem message_read_resets_counter (mode : Mode) (reads : Reads) (s : LoopState) :
    (0 < (reads Sock.sock s.round).messageSize →
      (stepIn mode reads s).infail = 0 ∧
      (stepIn mode reads s).outfail = s.outfail ∧
      ((stepIn mode reads s).infail = s.infail ↔ s.infail = 0)) ∧
    (0 < (reads Sock.outsock s.round).messageSize →
      (stepOut mode reads s).outfail = 0 ∧
      (stepOut mode reads s).infail = s.infail ∧
      ((stepOut mode reads s).outfail = s.outfail ↔ s.outfail = 0)) := by
  constructor
  · intro h
    have h0 : (stepIn mode reads s).infail = 0 := by
      rw [stepIn_infail]
      split_ifs <;> first | rfl | omega
    refine ⟨h0, rfl, ?_⟩
    rw [h0]
    exact eq_comm
  · intro h
    have h0 : (stepOut mode reads s).outfail = 0 := by
      rw [stepOut_outfail]
      split_ifs <;> first | rfl | omega
    refine ⟨h0, rfl, ?_⟩
    rw [h0]
    exact eq_comm

theorem message_read_resets_counter_witness :
    0 < (closedThenPing Sock.sock 1).messageSize ∧
    (stepIn Mode.CLIENT closedThenPing ⟨1, 0, 1, []⟩).infail = 0 ∧
    (stepIn Mode.CLIENT closedThenPing ⟨1, 0, 1, []⟩).outfail = 0 :=
  ⟨by decide,
   ((message_read_resets_counter Mode.CLIENT closedThenPing ⟨1, 0, 1, []⟩).1 (by decide)).1,
   ((message_read_resets_counter Mode.CLIENT closedThenPing ⟨1, 0, 1, []⟩).1 (by decide)).2.1⟩

/-- C8, the claim fails: in the step that reads the 4-byte message `pingRead` the
write comes between `lock` and `unlock`, so it is performed while the mutex is
held. -/
theorem write_inside_lock :
    (packetTunnel (fromClientToOut Mode.CLIENT) pingRead).2 =
      [Action.lock, Action.read Sock.sock Buf.inbuffer,
       Action.write Sock.outsock Buf.inbuffer [80, 73, 78, 71] 4 7,
       Action.unlock, Action.usleep 1000] ∧
    writesOutsideLock false (packetTunnel (fromClientToOut Mode.CLIENT) pingRead).2 = false := by
  decide

/-- C8, amended: in every forwarding step the mutex is held from before the read
until after the write, when there is one: the actions of the step are lock, read,
at most one write, unlock, sleep, in this order, so the read and every write are
performed while the mutex is held and the unlock comes after them. -/
theorem lock_spans_read_and_write (context : tunnelContext) (r : ReadResult) :
    (packetTunnel context r).2 =
      [Action.lock, Action.read context.readSocket context.buffer] ++
        writesOf (packetTunnel context r).2 ++ [Action.unlock, Action.usleep SLEEPT] ∧
    (writesOf (packetTunnel context r).2).length ≤ 1 ∧
    ioInsideLock false (packetTunnel context r).2 = true := by
  rw [packetTunnel_writes, packetTunnel_trace]
  split_ifs <;> simp [ioInsideLock]

/-- C10: for every integer result r of the read, `packetTunnel` returns 1 when
r = -1, 10 when r = -2 and 0 otherwise, and performs a write exactly when r is
none of 0, -1, -2; a result r < -2 makes the step write with the negative length
r and makes `exchangeData` set the failure counter of the direction to 0. -/
theorem packetTunnel_any_result (context : tunnelContext) (r : ReadResult)
    (mode : Mode) (reads : Reads) (s : LoopState) :
    (packetTunnel context r).1 =
      (if r.messageSize = -1 then 1 else if r.messageSize = -2 then 10 else 0) ∧
    (writesOf (packetTunnel context r).2 =
      if r.messageSize = 0 ∨ r.messageSize = -1 ∨ r.messageSize = -2 then []
      else [Action.write context.writeSocket context.buffer r.bytes
              r.messageSize r.messageFrom]) ∧
    (r.messageSize < -2 →
      (packetTunnel context r).1 = 0 ∧
      writesOf (packetTunnel context r).2 =
        [Action.write context.writeSocket context.buffer r.bytes
          r.messageSize r.messageFrom]) ∧
    ((reads Sock.sock s.round).messageSize < -2 → (stepIn mode reads s).infail = 0) ∧
    ((reads Sock.outsock s.round).messageSize < -2 → (stepOut mode reads s).outfail = 0) := by
  refine ⟨packetTunnel_failures context r, packetTunnel_writes context r, ?_, ?_, ?_⟩
  · intro h
    rw [packetTunnel_failures, packetTunnel_writes]
    constructor
    · split_ifs <;> first | rfl | omega
    · split_ifs <;> first | rfl | omega
  · intro h
    rw [stepIn_infail]
    split_ifs <;> first | rfl | omega
  · intro h
    rw [stepOut_outfail]
    split_ifs <;> first | rfl | omega

theorem packetTunnel_any_result_witness :
    strayRead.messageSize < -2 ∧
    (packetTunnel (fromClientToOut Mode.SERVER) strayRead).1 = 0 ∧
    writesOf (packetTunnel (fromClientToOut Mode.SERVER) strayRead).2 =
      [Action.write Sock.outsock Buf.inbuffer [1, 2, 3] (-3) 7] ∧
    (stepIn Mode.SERVER (fun _ _ => strayRead) ⟨4, 0, 0, []⟩).infail = 0 ∧
    (stepOut Mode.SERVER (fun _ _ => strayRead) ⟨0, 4, 0, []⟩).outfail = 0 :=
  ⟨by decide,
   ((packetTunnel_any_result (fromClientToOut Mode.SERVER) strayRead Mode.SERVER
      (fun _ _ => strayRead) ⟨4, 0, 0, []⟩).2.2.1 (by decide)).1,
   ((packetTunnel_any_result (fromClientToOut Mode.SERVER) strayRead Mode.SERVER
      (fun _ _ => strayRead) ⟨4, 0, 0, []⟩).2.2.1 (by decide)).2,
   (packetTunnel_any_result (fromClientToOut Mode.SERVER) strayRead Mode.SERVER
      (fun _ _ => strayRead) ⟨4, 0, 0, []⟩).2.2.2.1 (by decide),
   (packetTunnel_any_result (fromOutToClient Mode.SERVER) strayRead Mode.SERVER
      (fun _ _ => strayRead) ⟨0, 4, 0, []⟩).2.2.2.2 (by decide)⟩

theorem step_counter_update_witness :
    (closedThenPing Sock.sock 0).messageSize = -1 ∧
    (stepIn Mode.CLIENT closedThenPing ⟨3, 2, 0, []⟩).infail = 3 + 1 :=
  ⟨by decide,
   (step_counter_update Mode.CLIENT closedThenPing ⟨3, 2, 0, []⟩).1.2.1 (by decide)⟩

/-! ### The forwarding loop -/

theorem loopCond_iff (s : LoopState) :
    loopCond s = true ↔ s.infail < 5 ∧ s.outfail < 5 := by
  simp [loopCond]

theorem loopCond_false_iff (s : LoopState) :
    loopCond s = false ↔ 5 ≤ s.infail ∨ 5 ≤ s.outfail := by
  rw [← Bool.not_eq_true, loopCond_iff]
  omega

theorem loopCond_counter (s : LoopState) (d : Direction) :
    loopCond s = true ↔ s.counter d < 5 ∧ s.counter d.other < 5 := by
  rw [loopCond_iff]
  cases d <;> simp [LoopState.counter, Direction.other, and_comm]

theorem whileLoop_succ (mode : Mode) (reads : Reads) (fuel : Nat) (s : LoopState) :
    whileLoop mode reads (fuel + 1) s =
      if loopCond s then whileLoop mode reads fuel (loopBody mode reads s) else s := rfl

theorem whileLoop_of_cond (mode : Mode) (reads : Reads) (fuel : Nat) (s : LoopState)
    (h : loopCond s = true) :
    whileLoop mode reads (fuel + 1) s = whileLoop mode reads fuel (loopBody mode reads s) := by
  rw [whileLoop_succ, if_pos h]

theorem whileLoop_of_not_cond (mode : Mode) (reads : Reads) (fuel : Nat) (s : LoopState)
    (h : loopCond s = false) : whileLoop mode reads fuel s = s := by
  cases fuel with
  | zero => rfl
  | succ n => rw [whileLoop_succ]; simp [h]

theorem whileLoop_add (mode : Mode) (reads : Reads) (a b : Nat) (s : LoopState) :
    whileLoop mode reads (a + b) s = whileLoop mode reads b (whileLoop mode reads a s) := by
  induction a generalizing s with
  | zero => simp [whileLoop]
  | succ n ih =>
    rw [Nat.add_right_comm, whileLoop_succ, whileLoop_succ]
    by_cases h : loopCond s = true
    · rw [if_pos h, if_pos h, ih]
    · rw [if_neg h, if_neg h]
      exact (whileLoop_of_not_cond mode reads b s (by simpa using h)).symm

theorem whileLoop_one (mode : Mode) (reads : Reads) (s : LoopState) :
    whileLoop mode reads 1 s = if loopCond s then loopBody mode reads s else s := rfl

@[simp] theorem loopBody_round (mode : Mode) (reads : Reads) (s : LoopState) :
    (loopBody mode reads s).round = s.round + 1 := rfl

theorem loopBody_infail (mode : Mode) (reads : Reads) (s : LoopState) :
    (loopBody mode reads s).infail = (stepIn mode reads s).infail := rfl

theorem loopBody_trace (mode : Mode) (reads : Reads) (s : LoopState) :
    (loopBody mode reads s).trace =
      s.trace ++ (packetTunnel (fromClientToOut mode) (reads Sock.sock s.round)).2 ++
        (packetTunnel (fromOutToClient mode) (reads Sock.outsock s.round)).2 := rfl

theorem loopBody_counter (mode : Mode) (reads : Reads) (s : LoopState) (d : Direction) :
    (loopBody mode reads s).counter d =
      if (reads d.source s.round).messageSize = -1 then s.counter d + 1
      else if (reads d.source s.round).messageSize = -2 then s.counter d + 10
      else 0 := by
  cases d
  · exact stepIn_infail mode reads s
  · exact stepOut_outfail mode reads (stepIn mode reads s)

/-- Every counter value the loop reaches from `infail = 0`, `outfail = 0` lies in
`0 .. 14`: the additions of lines 133 and 140 stay far inside the range of `int`. -/
theorem whileLoop_counters_bounded (mode : Mode) (reads : Reads) (fuel : Nat)
    (s : LoopState) (hi : 0 ≤ s.infail ∧ s.infail ≤ 14) (ho : 0 ≤ s.outfail ∧ s.outfail ≤ 14) :
    (0 ≤ (whileLoop mode reads fuel s).infail ∧ (whileLoop mode reads fuel s).infail ≤ 14) ∧
    (0 ≤ (whileLoop mode reads fuel s).outfail ∧ (whileLoop mode reads fuel s).outfail ≤ 14) := by
  induction fuel generalizing s with
  | zero => exact ⟨hi, ho⟩
  | succ n ih =>
    rw [whileLoop_succ]
    by_cases h : loopCond s = true
    · rw [if_pos h]
      have hc := (loopCond_iff s).1 h
      apply ih
      · have := loopBody_counter mode reads s Direction.localToRemote
        simp only [LoopState.counter] at this
        rw [this]
        split_ifs <;> omega
      · have := loopBody_counter mode reads s Direction.remoteToLocal
        simp only [LoopState.counter] at this
        rw [this]
        split_ifs <;> omega
    · rw [if_neg h]
      exact ⟨hi, ho⟩

/-- While direction `d` reads connection-closed and the other direction does not
fail, each round adds 1 to the counter of `d` and keeps the other counter at 0. -/
theorem whileLoop_closed_run (mode : Mode) (reads : Reads) (d : Direction)
    (m : Nat) (s : LoopState)
    (hother : ∀ i, s.round ≤ i → i < s.round + m → notFailing (reads d.otherSource i))
    (hclosed : ∀ i, s.round ≤ i → i < s.round + m → (reads d.source i).messageSize = -1)
    (hc : s.counter d + m ≤ 5) (ho : s.counter d.other = 0) :
    (whileLoop mode reads m s).round = s.round + m ∧
    (whileLoop mode reads m s).counter d = s.counter d + m ∧
    (whileLoop mode reads m s).counter d.other = 0 := by
  induction m generalizing s with
  | zero => simp [whileLoop, ho]
  | succ n ih =>
    have hcond : loopCond s = true := by
      rw [loopCond_counter s d]
      omega
    rw [whileLoop_of_cond mode reads n s hcond]
    have h1 : (loopBody mode reads s).counter d = s.counter d + 1 := by
      rw [loopBody_counter, if_pos (hclosed s.round le_rfl (by omega))]
    have h2 : (loopBody mode reads s).counter d.other = 0 := by
      have hn := hother s.round le_rfl (by omega)
      rw [loopBody_counter]
      have hsrc : d.other.source = d.otherSource := by cases d <;> rfl
      rw [hsrc, if_neg hn.1, if_neg hn.2]
    have := ih (loopBody mode reads s)
      (fun i hi hlt => hother i (by simp at hi; omega) (by simp at hlt; omega))
      (fun i hi hlt => hclosed i (by simp at hi; omega) (by simp at hlt; omega))
      (by rw [h1]; omega) h2
    rw [h1] at this
    simp only [loopBody_round] at this
    refine ⟨by omega, ?_, this.2.2⟩
    rw [this.2.1]
    push_cast
    omega

theorem loopStart_counter (mode : Mode) (d : Direction) :
    (loopStart mode).counter d = 0 := by
  cases d <;> rfl

theorem exchangeData_eq_none_iff (mode : Mode) (reads : Reads) (fuel : Nat) :
    exchangeData mode reads fuel = none ↔
      loopCond (whileLoop mode reads fuel (loopStart mode)) = true := by
  unfold exchangeData
  by_cases h : loopCond (whileLoop mode reads fuel (loopStart mode)) = true <;> simp [h]

/-- C4: from both counters at 0, with the other direction never failing, for
either direction `d`: when the reads of `d` are connection-closed in rounds 1 to 5
the loop condition still holds after each of the rounds 1 to 4 and fails after
round 5, where the loop stops for good; when they are connection-closed in rounds
1 to 4, zero-length in round 5 and connection-closed in rounds 6 to 9, the loop
condition holds after each of the 9 rounds and the counter of `d` is then 4. -/
theorem closed_reads_threshold (mode : Mode) (reads : Reads) (d : Direction)
    (hother : ∀ i, notFailing (reads d.otherSource i)) :
    ((∀ i, i < 5 → (reads d.source i).messageSize = -1) →
      (∀ n, n ≤ 4 →
        loopCond (whileLoop mode reads n (loopStart mode)) = true ∧
        (whileLoop mode reads n (loopStart mode)).round = n ∧
        exchangeData mode reads n = none) ∧
      loopCond (whileLoop mode reads 5 (loopStart mode)) = false ∧
      (whileLoop mode reads 5 (loopStart mode)).round = 5 ∧
      (whileLoop mode reads 5 (loopStart mode)).counter d = 5 ∧
      (∀ fuel, 5 ≤ fuel →
        whileLoop mode reads fuel (loopStart mode) = whileLoop mode reads 5 (loopStart mode) ∧
        exchangeData mode reads fuel =
          some ((whileLoop mode reads 5 (loopStart mode)).trace ++ teardown))) ∧
    ((∀ i, i < 4 → (reads d.source i).messageSize = -1) →
      (reads d.source 4).messageSize = 0 →
      (∀ i, 5 ≤ i → i < 9 → (reads d.source i).messageSize = -1) →
      (∀ n, n ≤ 9 →
        loopCond (whileLoop mode reads n (loopStart mode)) = true ∧
        (whileLoop mode reads n (loopStart mode)).round = n ∧
        exchangeData mode reads n = none) ∧
      (whileLoop mode reads 9 (loopStart mode)).counter d = 4) := by
  have hstart : (loopStart mode).round = 0 := rfl
  -- a run of at most 5 connection-closed rounds from the start
  have run1 : ∀ n, n ≤ 5 → (∀ i, i < n → (reads d.source i).messageSize = -1) →
      (whileLoop mode reads n (loopStart mode)).round = n ∧
      (whileLoop mode reads n (loopStart mode)).counter d = n ∧
      (whileLoop mode reads n (loopStart mode)).counter d.other = 0 := by
    intro n hn hcl
    have := whileLoop_closed_run mode reads d n (loopStart mode)
      (fun i _ _ => hother i) (fun i _ hlt => hcl i (by rw [hstart] at hlt; omega))
      (by rw [loopStart_counter]; omega) (loopStart_counter mode d.other)
    rw [loopStart_counter, hstart] at this
    simpa using this
  constructor
  · intro hcl
    have h5 := run1 5 le_rfl hcl
    have hc5 : loopCond (whileLoop mode reads 5 (loopStart mode)) = false := by
      rw [← Bool.not_eq_true, loopCond_counter _ d, h5.2.1]
      norm_num
    refine ⟨?_, hc5, h5.1, by simpa using h5.2.1, ?_⟩
    · intro n hn
      have hr := run1 n (by omega) (fun i hi => hcl i (by omega))
      have hc : loopCond (whileLoop mode reads n (loopStart mode)) = true := by
        rw [loopCond_counter _ d, hr.2.1, hr.2.2]
        constructor
        · exact_mod_cast (by omega : n < 5)
        · norm_num
      exact ⟨hc, hr.1, (exchangeData_eq_none_iff mode reads n).2 hc⟩
    · intro fuel hf
      obtain ⟨j, rfl⟩ := Nat.exists_eq_add_of_le hf
      have hw : whileLoop mode reads (5 + j) (loopStart mode) =
          whileLoop mode reads 5 (loopStart mode) := by
        rw [whileLoop_add, whileLoop_of_not_cond mode reads j _ hc5]
      refine ⟨hw, ?_⟩
      unfold exchangeData
      simp only [hw, hc5]
      rfl
  · intro hcl4 hzero hcl9
    have h4 := run1 4 (by omega) hcl4
    have hc4 : loopCond (whileLoop mode reads 4 (loopStart mode)) = true := by
      rw [loopCond_counter _ d, h4.2.1, h4.2.2]
      norm_num
    have hw5 : whileLoop mode reads 5 (loopStart mode) =
        loopBody mode reads (whileLoop mode reads 4 (loopStart mode)) := by
      rw [show (5 : Nat) = 4 + 1 from rfl, whileLoop_add, whileLoop_one, if_pos hc4]
    have h5r : (whileLoop mode reads 5 (loopStart mode)).round = 5 := by
      rw [hw5, loopBody_round, h4.1]
    have h5d : (whileLoop mode reads 5 (loopStart mode)).counter d = 0 := by
      rw [hw5, loopBody_counter, h4.1, hzero]
      simp
    have h5o : (whileLoop mode reads 5 (loopStart mode)).counter d.other = 0 := by
      have hsrc : d.other.source = d.otherSource := by cases d <;> rfl
      rw [hw5, loopBody_counter, hsrc, if_neg (hother _).1, if_neg (hother _).2]
    have run2 : ∀ j, j ≤ 4 →
        (whileLoop mode reads (5 + j) (loopStart mode)).round = 5 + j ∧
        (whileLoop mode reads (5 + j) (loopStart mode)).counter d = j ∧
        (whileLoop mode reads (5 + j) (loopStart mode)).counter d.other = 0 := by
      intro j hj
      have := whileLoop_closed_run mode reads d j (whileLoop mode reads 5 (loopStart mode))
        (fun i _ _ => hother i)
        (fun i hi hlt => hcl9 i (by rw [h5r] at hi; exact hi) (by rw [h5r] at hlt; omega))
        (by rw [h5d]; omega) h5o
      rw [h5r, h5d] at this
      rw [whileLoop_add]
      simpa using this
    constructor
    · intro n hn
      have key : (whileLoop mode reads n (loopStart mode)).round = n ∧
          (whileLoop mode reads n (loopStart mode)).counter d < 5 ∧
          (whileLoop mode reads n (loopStart mode)).counter d.other = 0 := by
        by_cases hlt : n ≤ 4
        · have hr := run1 n (by omega) (fun i hi => hcl4 i (by omega))
          refine ⟨hr.1, ?_, hr.2.2⟩
          rw [hr.2.1]
          exact_mod_cast (by omega : n < 5)
        · obtain ⟨j, rfl⟩ := Nat.exists_eq_add_of_le (by omega : 5 ≤ n)
          have hr := run2 j (by omega)
          refine ⟨hr.1, ?_, hr.2.2⟩
          rw [hr.2.1]
          exact_mod_cast (by omega : j < 5)
      have hc : loopCond (whileLoop mode reads n (loopStart mode)) = true := by
        rw [loopCond_counter _ d, key.2.2]
        exact ⟨key.2.1, by norm_num⟩
      exact ⟨hc, key.1, (exchangeData_eq_none_iff mode reads n).2 hc⟩
    · have := (run2 4 le_rfl).2.1
      simpa using this

theorem localAlwaysClosed_other (i : Nat) :
    notFailing (localAlwaysClosed Direction.localToRemote.otherSource i) := by
  show notFailing emptyRead
  unfold notFailing
  decide

theorem closedWithPause_other (i : Nat) :
    notFailing (closedWithPause Direction.localToRemote.otherSource i) := by
  show notFailing pingRead
  unfold notFailing
  decide

theorem closedWithPause_closed (i : Nat) (h : i ≠ 4) :
    (closedWithPause Direction.localToRemote.source i).messageSize = -1 := by
  show (if i = 4 then emptyRead else closedRead).messageSize = -1
  rw [if_neg h]
  rfl

theorem closed_reads_threshold_witness :
    ((∀ i, notFailing (localAlwaysClosed Direction.localToRemote.otherSource i)) ∧
     (∀ i, i < 5 → (localAlwaysClosed Direction.localToRemote.source i).messageSize = -1) ∧
     loopCond (whileLoop Mode.CLIENT localAlwaysClosed 5 (loopStart Mode.CLIENT)) = false ∧
     (whileLoop Mode.CLIENT localAlwaysClosed 5 (loopStart Mode.CLIENT)).round = 5) ∧
    ((∀ i, notFailing (closedWithPause Direction.localToRemote.otherSource i)) ∧
     (∀ i, i < 4 → (closedWithPause Direction.localToRemote.source i).messageSize = -1) ∧
     (closedWithPause Direction.localToRemote.source 4).messageSize = 0 ∧
     (∀ i, 5 ≤ i → i < 9 →
       (closedWithPause Direction.localToRemote.source i).messageSize = -1) ∧
     (whileLoop Mode.CLIENT closedWithPause 9 (loopStart Mode.CLIENT)).counter
       Direction.localToRemote = 4) :=
  ⟨⟨localAlwaysClosed_other, fun _ _ => rfl,
    (((closed_reads_threshold Mode.CLIENT localAlwaysClosed Direction.localToRemote
       localAlwaysClosed_other).1 (fun _ _ => rfl)).2.1),
    (((closed_reads_threshold Mode.CLIENT localAlwaysClosed Direction.localToRemote
       localAlwaysClosed_other).1 (fun _ _ => rfl)).2.2.1)⟩,
   ⟨closedWithPause_other,
    fun i hi => closedWithPause_closed i (by omega),
    rfl,
    fun i h5 _ => closedWithPause_closed i (by omega),
    ((closed_reads_threshold Mode.CLIENT closedWithPause Direction.localToRemote
       closedWithPause_other).2 (fun i hi => closedWithPause_closed i (by omega)) rfl
       (fun i h5 _ => closedWithPause_closed i (by omega))).2⟩⟩

theorem packetTunnel_counts_ten (context : tunnelContext) (r r' : ReadResult)
    (hr : r.messageSize = -2) (hr' : r'.messageSize = -1) :
    (packetTunnel context r).1 = 10 * (packetTunnel context r').1 := by
  rw [packetTunnel_failures, packetTunnel_failures, hr, hr']
  decide

/-- C5: for either direction `d` and every state at the top of the loop with both
counters in 0..4: a round in which the read of `d` is a protocol-violation adds
10 to the counter of `d`, ten times what a connection-closed read adds, so the
counter is at least 5 and the loop is left at the end of that round, whatever the
read of the other direction. -/
theorem violation_crosses_threshold (mode : Mode) (reads : Reads) (s : LoopState)
    (d : Direction) (hi : 0 ≤ s.infail ∧ s.infail ≤ 4) (ho : 0 ≤ s.outfail ∧ s.outfail ≤ 4)
    (hv : (reads d.source s.round).messageSize = -2) :
    (packetTunnel (fromClientToOut mode) badRead).1 =
      10 * (packetTunnel (fromClientToOut mode) closedRead).1 ∧
    (loopBody mode reads s).counter d = s.counter d + 10 ∧
    5 ≤ (loopBody mode reads s).counter d ∧
    loopCond (loopBody mode reads s) = false ∧
    ∀ fuel, whileLoop mode reads (fuel + 1) s = loopBody mode reads s := by
  have hcond : loopCond s = true := by
    rw [loopCond_iff]
    omega
  have hd : (loopBody mode reads s).counter d = s.counter d + 10 := by
    rw [loopBody_counter, hv]
    simp
  have h0 : 0 ≤ s.counter d := by
    cases d
    · exact hi.1
    · exact ho.1
  have hexit : loopCond (loopBody mode reads s) = false := by
    rw [← Bool.not_eq_true, loopCond_counter _ d, hd]
    omega
  refine ⟨packetTunnel_counts_ten _ _ _ rfl rfl, hd, by omega, hexit, ?_⟩
  intro fuel
  rw [whileLoop_of_cond mode reads fuel s hcond, whileLoop_of_not_cond mode reads fuel _ hexit]

theorem violation_crosses_threshold_witness :
    ((0 : Int) ≤ 0 ∧ (0 : Int) ≤ 4) ∧
    ((fun _ _ => badRead : Reads) Direction.remoteToLocal.source 0).messageSize = -2 ∧
    loopCond (loopBody Mode.SERVER (fun _ _ => badRead) ⟨0, 0, 0, []⟩) = false :=
  ⟨by decide, rfl,
   (violation_crosses_threshold Mode.SERVER (fun _ _ => badRead) ⟨0, 0, 0, []⟩
      Direction.remoteToLocal (by decide) (by decide) rfl).2.2.2.1⟩

/-! ### The order of the steps -/

theorem stepsOf_append (a b : List Action) : stepsOf (a ++ b) = stepsOf a ++ stepsOf b := by
  simp [stepsOf, List.filterMap_append]

theorem stepsOf_fromClientToOut (mode : Mode) (r : ReadResult) :
    stepsOf (packetTunnel (fromClientToOut mode) r).2 = [Direction.localToRemote] := by
  rw [packetTunnel_trace]
  split_ifs <;> rfl

theorem stepsOf_fromOutToClient (mode : Mode) (r : ReadResult) :
    stepsOf (packetTunnel (fromOutToClient mode) r).2 = [Direction.remoteToLocal] := by
  rw [packetTunnel_trace]
  split_ifs <;> rfl

theorem stepsOf_loopBody (mode : Mode) (reads : Reads) (s : LoopState) :
    stepsOf (loopBody mode reads s).trace =
      stepsOf s.trace ++ [Direction.localToRemote, Direction.remoteToLocal] := by
  rw [loopBody_trace, stepsOf_append, stepsOf_append, stepsOf_fromClientToOut,
    stepsOf_fromOutToClient]
  simp

theorem stepsOf_whileLoop (mode : Mode) (reads : Reads) (fuel : Nat) (s : LoopState) :
    ∃ m, (whileLoop mode reads fuel s).round = s.round + m ∧
      stepsOf (whileLoop mode reads fuel s).trace = stepsOf s.trace ++ roundSteps m := by
  induction fuel generalizing s with
  | zero => exact ⟨0, rfl, by simp [whileLoop, roundSteps]⟩
  | succ n ih =>
    rw [whileLoop_succ]
    by_cases h : loopCond s = true
    · rw [if_pos h]
      obtain ⟨m, hr, ht⟩ := ih (loopBody mode reads s)
      refine ⟨m + 1, ?_, ?_⟩
      · rw [hr, loopBody_round]
        omega
      · rw [ht, stepsOf_loopBody]
        simp [roundSteps]
    · rw [if_neg h]
      exact ⟨0, rfl, by simp [roundSteps]⟩

theorem stepsOf_loopStart (mode : Mode) (reads : Reads) (fuel : Nat) :
    stepsOf (whileLoop mode reads fuel (loopStart mode)).trace =
      roundSteps (whileLoop mode reads fuel (loopStart mode)).round := by
  obtain ⟨m, hr, ht⟩ := stepsOf_whileLoop mode reads fuel (loopStart mode)
  have h0 : stepsOf (loopStart mode).trace = [] := by
    cases mode <;> rfl
  have hr0 : (loopStart mode).round = 0 := rfl
  rw [ht, hr, h0, hr0]
  simp

theorem roundSteps_length (n : Nat) : (roundSteps n).length = 2 * n := by
  induction n with
  | zero => rfl
  | succ n ih => simp [roundSteps, ih]; omega

theorem roundSteps_getElem? (n j : Nat) (h : j < 2 * n) :
    (roundSteps n)[j]? = some (turn j) := by
  induction n generalizing j with
  | zero => omega
  | succ n ih =>
    match j with
    | 0 => simp [roundSteps, turn]
    | 1 => simp [roundSteps, turn]
    | j + 2 =>
      have := ih j (by omega)
      simp only [roundSteps, List.getElem?_cons_succ, this]
      simp [turn]

theorem turn_count_pair (j : Nat) :
    List.count Direction.localToRemote [turn j, turn (j + 1)] = 1 ∧
    List.count Direction.remoteToLocal [turn j, turn (j + 1)] = 1 := by
  rcases Nat.mod_two_eq_zero_or_one j with h | h
  · have h1 : (j + 1) % 2 = 1 := by omega
    simp [turn, h, h1]
  · have h1 : (j + 1) % 2 = 0 := by omega
    simp [turn, h, h1]

theorem window_count (d : List Direction)
    (hd : ∀ j, j < d.length → d[j]? = some (turn j)) (i k : Nat)
    (h : i + 2 * k ≤ d.length) :
    List.count Direction.localToRemote ((d.drop i).take (2 * k)) = k ∧
    List.count Direction.remoteToLocal ((d.drop i).take (2 * k)) = k := by
  induction k with
  | zero => simp
  | succ k ih =>
    have ih := ih (by omega)
    have e : 2 * (k + 1) = 2 * k + 1 + 1 := by ring
    have g0 : (d.drop i)[2 * k]? = some (turn (i + 2 * k)) := by
      rw [List.getElem?_drop]
      exact hd _ (by omega)
    have g1 : (d.drop i)[2 * k + 1]? = some (turn (i + 2 * k + 1)) := by
      rw [List.getElem?_drop]
      exact hd _ (by omega)
    have hp := turn_count_pair (i + 2 * k)
    rw [e, List.take_succ, List.take_succ, g0, g1]
    simp only [Option.toList, List.append_assoc, List.singleton_append, List.count_append]
    omega

/-- C6: for every session, the steps the forwarding loop has executed after any
number of iterations alternate strictly, local→remote first: the step at position
j (from 0) is local→remote when j is even and remote→local when j is odd; hence
every window of 2k consecutive steps holds exactly k steps of each direction. -/
theorem steps_alternate (mode : Mode) (reads : Reads) (fuel : Nat) :
    (stepsOf (whileLoop mode reads fuel (loopStart mode)).trace).length =
      2 * (whileLoop mode reads fuel (loopStart mode)).round ∧
    (∀ j, j < (stepsOf (whileLoop mode reads fuel (loopStart mode)).trace).length →
      (stepsOf (whileLoop mode reads fuel (loopStart mode)).trace)[j]? =
        some (if j % 2 = 0 then Direction.localToRemote else Direction.remoteToLocal)) ∧
    (∀ i k, i + 2 * k ≤ (stepsOf (whileLoop mode reads fuel (loopStart mode)).trace).length →
      List.count Direction.localToRemote
        (((stepsOf (whileLoop mode reads fuel (loopStart mode)).trace).drop i).take (2 * k)) = k ∧
      List.count Direction.remoteToLocal
        (((stepsOf (whileLoop mode reads fuel (loopStart mode)).trace).drop i).take (2 * k)) = k) ∧
    (∀ tr, exchangeData mode reads fuel = some tr →
      stepsOf tr = stepsOf (whileLoop mode reads fuel (loopStart mode)).trace) := by
  have hget : ∀ j, j < (stepsOf (whileLoop mode reads fuel (loopStart mode)).trace).length →
      (stepsOf (whileLoop mode reads fuel (loopStart mode)).trace)[j]? = some (turn j) := by
    intro j hj
    rw [stepsOf_loopStart] at hj ⊢
    rw [roundSteps_length] at hj
    exact roundSteps_getElem? _ j hj
  refine ⟨?_, hget, ?_, ?_⟩
  · rw [stepsOf_loopStart, roundSteps_length]
  · intro i k h
    exact window_count _ hget i k h
  · intro tr htr
    unfold exchangeData at htr
    by_cases hc : loopCond (whileLoop mode reads fuel (loopStart mode)) = true
    · simp [hc] at htr
    · simp only [hc] at htr
      simp only [Bool.false_eq_true, if_false, Option.some.injEq] at htr
      rw [← htr, stepsOf_append]
      have : stepsOf teardown = [] := rfl
      rw [this, List.append_nil]

theorem steps_alternate_witness :
    1 + 2 * 2 ≤ (stepsOf (whileLoop Mode.CLIENT localAlwaysClosed 5
        (loopStart Mode.CLIENT)).trace).length ∧
    List.count Direction.localToRemote
      (((stepsOf (whileLoop Mode.CLIENT localAlwaysClosed 5
        (loopStart Mode.CLIENT)).trace).drop 1).take (2 * 2)) = 2 ∧
    List.count Direction.remoteToLocal
      (((stepsOf (whileLoop Mode.CLIENT localAlwaysClosed 5
        (loopStart Mode.CLIENT)).trace).drop 1).take (2 * 2)) = 2 :=
  ⟨by decide,
   (steps_alternate Mode.CLIENT localAlwaysClosed 5).2.2.1 1 2 (by decide)⟩

theorem whileLoop_round_le (mode : Mode) (reads : Reads) (fuel : Nat) (s : LoopState) :
    s.round ≤ (whileLoop mode reads fuel s).round := by
  obtain ⟨m, hr, _⟩ := stepsOf_whileLoop mode reads fuel s
  omega

/-- C7: in a round that starts with both counters below 5: when the local→remote
step brings `infail` to 5 or more, the loop executes the remote→local step of that
round, and nothing more, whatever `outfail` is; when the remote→local step brings
`outfail` to 5 or more, the loop executes nothing more. From any state, the loop
runs another round exactly when both counters are below 5. -/
theorem threshold_ends_loop (mode : Mode) (reads : Reads) (s : LoopState) (fuel : Nat) :
    (loopCond s = true → 5 ≤ (stepIn mode reads s).infail →
      whileLoop mode reads (fuel + 1) s = stepOut mode reads (stepIn mode reads s) ∧
      stepsOf (whileLoop mode reads (fuel + 1) s).trace =
        stepsOf (stepIn mode reads s).trace ++ [Direction.remoteToLocal]) ∧
    (loopCond s = true → 5 ≤ (loopBody mode reads s).outfail →
      whileLoop mode reads (fuel + 1) s = loopBody mode reads s) ∧
    (s.round < (whileLoop mode reads (fuel + 1) s).round ↔ s.infail < 5 ∧ s.outfail < 5) := by
  refine ⟨?_, ?_, ?_⟩
  · intro hc h5
    have hexit : loopCond (loopBody mode reads s) = false := by
      rw [loopCond_false_iff]
      exact Or.inl h5
    have hw : whileLoop mode reads (fuel + 1) s = stepOut mode reads (stepIn mode reads s) := by
      rw [whileLoop_of_cond mode reads fuel s hc, whileLoop_of_not_cond mode reads fuel _ hexit]
      rfl
    refine ⟨hw, ?_⟩
    rw [hw, stepOut_trace, stepsOf_append, stepsOf_fromOutToClient]
  · intro hc h5
    have hexit : loopCond (loopBody mode reads s) = false := by
      rw [loopCond_false_iff]
      exact Or.inr h5
    rw [whileLoop_of_cond mode reads fuel s hc, whileLoop_of_not_cond mode reads fuel _ hexit]
  · rw [← loopCond_iff]
    constructor
    · intro hlt
      by_contra hc
      rw [whileLoop_of_not_cond mode reads (fuel + 1) s (by simpa using hc)] at hlt
      exact lt_irrefl _ hlt
    · intro hc
      rw [whileLoop_of_cond mode reads fuel s hc]
      have := whileLoop_round_le mode reads fuel (loopBody mode reads s)
      rw [loopBody_round] at this
      omega

theorem threshold_ends_loop_witness :
    loopCond ⟨4, 0, 0, []⟩ = true ∧
    5 ≤ (stepIn Mode.CLIENT localAlwaysClosed ⟨4, 0, 0, []⟩).infail ∧
    whileLoop Mode.CLIENT localAlwaysClosed (3 + 1) ⟨4, 0, 0, []⟩ =
      stepOut Mode.CLIENT localAlwaysClosed (stepIn Mode.CLIENT localAlwaysClosed ⟨4, 0, 0, []⟩) :=
  ⟨by decide, by decide,
   ((threshold_ends_loop Mode.CLIENT localAlwaysClosed ⟨4, 0, 0, []⟩ 3).1
      (by decide) (by decide)).1⟩

/-! ### The trace of a session -/

theorem packetTunnel_stepActions (context : tunnelContext) (r : ReadResult) :
    ∀ a ∈ (packetTunnel context r).2, isStepAction a = true := by
  rw [packetTunnel_trace]
  split_ifs <;> simp [isStepAction]

theorem whileLoop_trace (mode : Mode) (reads : Reads) (fuel : Nat) (s : LoopState) :
    ∃ fwd, (whileLoop mode reads fuel s).trace = s.trace ++ fwd ∧
      ∀ a ∈ fwd, isStepAction a = true := by
  induction fuel generalizing s with
  | zero => exact ⟨[], by simp [whileLoop], by simp⟩
  | succ n ih =>
    rw [whileLoop_succ]
    by_cases h : loopCond s = true
    · rw [if_pos h]
      obtain ⟨fwd, ht, hall⟩ := ih (loopBody mode reads s)
      refine ⟨(packetTunnel (fromClientToOut mode) (reads Sock.sock s.round)).2 ++
        (packetTunnel (fromOutToClient mode) (reads Sock.outsock s.round)).2 ++ fwd, ?_, ?_⟩
      · rw [ht, loopBody_trace]
        simp
      · intro a ha
        rcases List.mem_append.1 ha with ha | ha
        · rcases List.mem_append.1 ha with ha | ha
          · exact packetTunnel_stepActions _ _ a ha
          · exact packetTunnel_stepActions _ _ a ha
        · exact hall a ha
    · rw [if_neg h]
      exact ⟨[], by simp, by simp⟩

theorem dropWhile_append_of_forall {α : Type} (p : α → Bool) (l r : List α)
    (h : ∀ a ∈ l, p a = true) : (l ++ r).dropWhile p = r.dropWhile p := by
  induction l with
  | nil => rfl
  | cons x xs ih =>
    have hx : p x = true := h x (by simp)
    rw [List.cons_append, List.dropWhile_cons, if_pos hx]
    exact ih (fun a ha => h a (by simp [ha]))

theorem stepAction_not_handshake (a : Action) (h : isStepAction a = true) :
    isHandshake a = false ∧ isClose a = false := by
  cases a <;> simp_all [isStepAction, isHandshake, isClose]

/-- C9: for either role and every session whose loop is left, the trace of
`exchangeData` is: the connection of `outsock`, one handshake call (in CLIENT
role `sendHelloMessage` on `outsock`, in SERVER role `receiveHelloMessage` on
`sock`), then only actions of forwarding steps, in complete alternating rounds,
then a sleep, the clearing of both buffers, `closeSocket` on `outsock`, a sleep,
`closeSocket` on `sock` and `exit(0)`. The trace holds exactly one handshake
action, no read or write before it and none from the first close on, and it is
the same for every larger number of allowed iterations. -/
theorem exchangeData_trace_shape (mode : Mode) (reads : Reads) (fuel : Nat)
    (tr : List Action) (h : exchangeData mode reads fuel = some tr) :
    ∃ fwd : List Action,
      tr = [Action.connect Sock.outsock
              (if mode = Mode.CLIENT then Protocol.HTTP else Protocol.PLAIN),
            if mode = Mode.CLIENT then Action.sendHelloMessage Sock.outsock
            else Action.receiveHelloMessage Sock.sock] ++ fwd ++
           [Action.usleep 100000, Action.clear Buf.inbuffer, Action.clear Buf.outbuffer,
            Action.closeSocket Sock.outsock, Action.usleep 100000,
            Action.closeSocket Sock.sock, Action.exit 0] ∧
      (∀ a ∈ fwd, isStepAction a = true) ∧
      stepsOf fwd = roundSteps (whileLoop mode reads fuel (loopStart mode)).round ∧
      tr.filter isHandshake =
        [if mode = Mode.CLIENT then Action.sendHelloMessage Sock.outsock
         else Action.receiveHelloMessage Sock.sock] ∧
      tr.filter isClose = [Action.closeSocket Sock.outsock, Action.closeSocket Sock.sock] ∧
      (∀ a ∈ tr.takeWhile (fun a => !isHandshake a), isRead a = false ∧ isWrite a = false) ∧
      (∀ a ∈ tr.dropWhile (fun a => !isClose a), isRead a = false ∧ isWrite a = false) ∧
      tr.getLast? = some (Action.exit 0) ∧
      ∀ fuel', fuel ≤ fuel' → exchangeData mode reads fuel' = some tr := by
  have hexit : loopCond (whileLoop mode reads fuel (loopStart mode)) = false := by
    by_contra hc
    rw [(exchangeData_eq_none_iff mode reads fuel).2 (by simpa using hc)] at h
    exact Option.noConfusion h
  have htr : tr = (whileLoop mode reads fuel (loopStart mode)).trace ++ teardown := by
    unfold exchangeData at h
    simp only [hexit, Bool.false_eq_true, if_false, Option.some.injEq] at h
    exact h.symm
  obtain ⟨fwd, hfwd, hall⟩ := whileLoop_trace mode reads fuel (loopStart mode)
  have hnh : ∀ a ∈ fwd, ¬ isHandshake a = true := fun a ha => by
    rw [(stepAction_not_handshake a (hall a ha)).1]
    exact Bool.false_ne_true
  have hnc : ∀ a ∈ fwd, ¬ isClose a = true := fun a ha => by
    rw [(stepAction_not_handshake a (hall a ha)).2]
    exact Bool.false_ne_true
  have hshape : tr = handshake mode ++ fwd ++ teardown := by
    rw [htr, hfwd]
    rfl
  refine ⟨fwd, hshape, hall, ?_, ?_, ?_, ?_, ?_, ?_, ?_⟩
  · have h1 := stepsOf_loopStart mode reads fuel
    rw [hfwd, stepsOf_append] at h1
    have h0 : stepsOf (loopStart mode).trace = [] := by cases mode <;> rfl
    rw [h0, List.nil_append] at h1
    exact h1
  · rw [hshape, List.filter_append, List.filter_append, List.filter_eq_nil_iff.2 hnh]
    cases mode <;> rfl
  · rw [hshape, List.filter_append, List.filter_append, List.filter_eq_nil_iff.2 hnc]
    cases mode <;> rfl
  · intro a ha
    rw [hshape] at ha
    cases mode <;>
      simp [handshake, List.takeWhile, isHandshake] at ha <;>
      subst ha <;> exact ⟨rfl, rfl⟩
  · intro a ha
    have hpre : ∀ b ∈ handshake mode ++ fwd, (fun a => !isClose a) b = true := by
      intro b hb
      rcases List.mem_append.1 hb with hb | hb
      · cases mode <;> simp [handshake] at hb <;> rcases hb with hb | hb <;>
          subst hb <;> rfl
      · simp [(stepAction_not_handshake b (hall b hb)).2]
    rw [hshape, dropWhile_append_of_forall _ _ _ hpre] at ha
    simp [teardown, List.dropWhile, isClose] at ha
    rcases ha with ha | ha | ha | ha <;> subst ha <;> exact ⟨rfl, rfl⟩
  · rw [hshape]
    simp [teardown]
  · intro fuel' hle
    obtain ⟨j, rfl⟩ := Nat.exists_eq_add_of_le hle
    have hw : whileLoop mode reads (fuel + j) (loopStart mode) =
        whileLoop mode reads fuel (loopStart mode) := by
      rw [whileLoop_add, whileLoop_of_not_cond mode reads j _ hexit]
    unfold exchangeData
    simp only [hw, hexit, Bool.false_eq_true, if_false]
    rw [htr]

theorem exchangeData_trace_shape_witness :
    exchangeData Mode.SERVER (fun _ _ => badRead) 1 =
      some [Action.connect Sock.outsock Protocol.PLAIN, Action.receiveHelloMessage Sock.sock,
        Action.lock, Action.read Sock.sock Buf.inbuffer, Action.unlock, Action.usleep 1000,
        Action.lock, Action.read Sock.outsock Buf.outbuffer, Action.unlock, Action.usleep 1000,
        Action.usleep 100000, Action.clear Buf.inbuffer, Action.clear Buf.outbuffer,
        Action.closeSocket Sock.outsock, Action.usleep 100000, Action.closeSocket Sock.sock,
        Action.exit 0] ∧
    ∃ fwd : List Action,
      [Action.connect Sock.outsock Protocol.PLAIN, Action.receiveHelloMessage Sock.sock,
        Action.lock, Action.read Sock.sock Buf.inbuffer, Action.unlock, Action.usleep 1000,
        Action.lock, Action.read Sock.outsock Buf.outbuffer, Action.unlock, Action.usleep 1000,
        Action.usleep 100000, Action.clear Buf.inbuffer, Action.clear Buf.outbuffer,
        Action.closeSocket Sock.outsock, Action.usleep 100000, Action.closeSocket Sock.sock,
        Action.exit 0] =
      [Action.connect Sock.outsock Protocol.PLAIN, Action.receiveHelloMessage Sock.sock] ++
        fwd ++
        [Action.usleep 100000, Action.clear Buf.inbuffer, Action.clear Buf.outbuffer,
         Action.closeSocket Sock.outsock, Action.usleep 100000,
         Action.closeSocket Sock.sock, Action.exit 0] ∧
      ∀ a ∈ fwd, isStepAction a = true :=
  ⟨by decide,
   (exchangeData_trace_shape Mode.SERVER (fun _ _ => badRead) 1 _ (by decide)).imp
     (fun _ hf => ⟨hf.1, hf.2.1⟩)⟩

end HOP
